import Mathlib

/-!
Verification development for the query engine of the AZ_Voting dashboard
(src/tab1.py).  The engine is embedded shallowly: Python strings become
`List Char`, pandas dataframes become `DataFrame` (a column list plus a
row list, each row a list of stringified cells in column order), and the
three query paths (free text, GraphQL subset, SQL subset) become total
Lean functions.  Fallible paths (`raise ValueError`, pandas `KeyError`)
return `Except String`.

Regular-expression use in the source is embedded by hand-rolled
backtracking matchers that follow Python `re` semantics (leftmost search,
greedy/lazy quantifier order) for the concrete patterns appearing in the
source; each matcher is documented next to the pattern it implements.
-/

namespace AZVoting

/-- Python strings, as lists of characters. -/
abbrev Str := List Char

/-- Python `str.lower()` (character-wise, as the engine only relies on
ASCII case folding). -/
def lowerL (s : Str) : Str := s.map Char.toLower

/-- `str.lower()` on Lean `String`s. -/
def lowerS (s : String) : String := String.mk (lowerL s.data)

/-- Python `str.upper()`. -/
def upperL (s : Str) : Str := s.map Char.toUpper

/-- Python `str.strip()` with no arguments: remove leading and trailing
whitespace. -/
def trimL (s : Str) : Str :=
  ((s.dropWhile Char.isWhitespace).reverse.dropWhile Char.isWhitespace).reverse

/-- Helper for `pySplitWs`: accumulates the current word (reversed). -/
def splitWsAux : Str → Str → List Str
  | [], acc => if acc.isEmpty then [] else [acc.reverse]
  | c :: rest, acc =>
    if c.isWhitespace then
      (if acc.isEmpty then splitWsAux rest [] else acc.reverse :: splitWsAux rest [])
    else splitWsAux rest (c :: acc)

/-- Python `str.split()` with no arguments: split on whitespace runs,
discarding empty pieces. -/
def pySplitWs (s : Str) : List Str := splitWsAux s []

/-- `" ".join(query.split())` — the whitespace normalisation both
structured parsers apply first (tab1.py line 28 / 89). -/
def normalizeWs (s : Str) : Str := List.intercalate ([' ']) (pySplitWs s)

/-- Python `needle in hay` for strings: substring containment. -/
def hasSub (hay pat : Str) : Bool :=
  match hay with
  | [] => pat.isEmpty
  | _ :: rest => pat.isPrefixOf hay || hasSub rest pat

/-- The in-memory dataset: pandas dataframe with stringified cells.
Cells are kept as strings because every engine operation first applies
`.astype(str)`; `rows` are aligned positionally with `cols`. -/
structure DataFrame where
  cols : List String
  rows : List (List String)
deriving DecidableEq

/-- `df[col]` evaluated at one row: the cell of `row` in column `c`
(first matching column, as pandas positional lookup; out-of-range cells
default to the empty string). -/
def cellAt (cols : List String) (row : List String) (c : String) : String :=
  match cols.findIdx? (fun x => x == c) with
  | some i => row.getD i ("")
  | none => ("")

/-- `" ".join(row.astype(str))` — the row serialization of the free-text
matcher (tab1.py line 24); `astype(str)` is the identity here because the
model stores cells as strings. -/
def rowSerial (row : List String) : String := String.intercalate (" ") row

/-- The free-text matcher `filter_data_by_query` (tab1.py lines 22-24):
lower-case and whitespace-split the query into tokens and keep the rows
whose lower-cased serialization contains every token. -/
def filter_data_by_query (df : DataFrame) (query : String) : List (List String) :=
  let tokens := pySplitWs (lowerL query.data)
  df.rows.filter (fun row => tokens.all (fun t => hasSub (lowerL (rowSerial row).data) t))

/-! ### Field alias tables and resolution (tab1.py lines 42-66, 100-124) -/

/-- The GraphQL alias table `gql2df` (tab1.py lines 42-66), copied
verbatim, camelCase keys included. -/
def gql2df : List (String × String) :=
  [ (("firstName"), ("First Name -MyData")),
    (("lastName"), ("Last Name -MyData")),
    (("phone"), ("Phone")),
    (("phoneType"), ("Phone Type")),
    (("landlinePhone"), ("Landline Phone")),
    (("cellPhone"), ("Cell Phone")),
    (("email"), ("Email -MyData")),
    (("address"), ("Address -MyData")),
    (("addressLine2"), ("Address Line 2 -MyData")),
    (("city"), ("City -MyData")),
    (("county"), ("County")),
    (("state"), ("State -MyData.")),
    (("zip"), ("Zip –MyData")),
    (("registrationStatus"), ("Registration Status")),
    (("registrationDate"), ("Registration Date")),
    (("voterStatus"), ("Voter Status")),
    (("party"), ("Party")),
    (("gender"), ("Gender -MyData")),
    (("township"), ("Township")),
    (("officialCongressionalDistricts"), ("Official Congressional Districts")),
    (("officialStateSenateDistricts"), ("Official State Senate Districts")),
    (("officialStateHouseDistrict"), ("Official State House District")),
    (("uid"), ("uid")) ]

/-- The SQL alias table `sql2df` (tab1.py lines 100-124), lower-flat
keys, copied verbatim. -/
def sql2df : List (String × String) :=
  [ (("firstname"), ("First Name -MyData")),
    (("lastname"), ("Last Name -MyData")),
    (("phone"), ("Phone")),
    (("phonetype"), ("Phone Type")),
    (("landlinephone"), ("Landline Phone")),
    (("cellphone"), ("Cell Phone")),
    (("email"), ("Email -MyData")),
    (("address"), ("Address -MyData")),
    (("addressline2"), ("Address Line 2 -MyData")),
    (("city"), ("City -MyData")),
    (("county"), ("County")),
    (("state"), ("State -MyData.")),
    (("zip"), ("Zip –MyData")),
    (("registrationstatus"), ("Registration Status")),
    (("registrationdate"), ("Registration Date")),
    (("voterstatus"), ("Voter Status")),
    (("party"), ("Party")),
    (("gender"), ("Gender -MyData")),
    (("township"), ("Township")),
    (("officialcongressionaldistricts"), ("Official Congressional Districts")),
    (("officialstatesenatedistricts"), ("Official State Senate Districts")),
    (("officialstatehousedistrict"), ("Official State House District")),
    (("uid"), ("uid")) ]

/-- `c.lower().replace(" ", "").replace("-", "")` — normalized column
key used by the fallback lookup. Replacing a one-character substring by
the empty string removes every occurrence of that character. -/
def normKey (s : String) : String :=
  String.mk (((lowerL s.data).filter (fun c => c ≠ ' ')).filter (fun c => c ≠ '-'))

/-- The fallback dict comprehension
`( c.lower().replace(" ","").replace("-",""): c for c in df.columns ).get(key)`:
when several columns share a normalized key the later one overwrites the
earlier, so the lookup returns the last matching column. -/
def normFallback (cols : List String) (key : String) : Option String :=
  cols.reverse.find? (fun c => normKey c == key)

/-- GraphQL field resolution (tab1.py lines 70 and 81):
`gql2df.get(field) or normMap.get(field.lower())`.  The alias lookup is
on `field` itself (case-sensitive); only the fallback lowers the name. -/
def resolveGql (cols : List String) (field : String) : Option String :=
  match List.lookup field gql2df with
  | some c => some c
  | none => normFallback cols (lowerS field)

/-- SQL field resolution (tab1.py lines 132 and 146):
`sql2df.get(col.lower()) or normMap.get(col.lower())`. -/
def resolveSql (cols : List String) (field : String) : Option String :=
  match List.lookup (lowerS field) sql2df with
  | some c => some c
  | none => normFallback cols (lowerS field)

/-! ### Backtracking regex combinators

Python `re` matches by depth-first backtracking: a greedy quantifier
tries the longest extent first, a lazy one the shortest, an optional
group tries the with-group branch first, alternatives are tried left to
right, and `re.search` tries start positions left to right.  The
combinators below implement exactly this order in continuation-passing
style; each matcher built from them names the pattern it embeds. -/

/-- Greedy `p*`: feed the continuation every split of `s` into a matched
group and a rest, longest group first. -/
def greedyMany {α : Type} (p : Char → Bool) (s : Str) (k : Str → Str → Option α) :
    Option α :=
  match s with
  | [] => k [] []
  | c :: rest =>
    if p c then (greedyMany p rest (fun g r => k (c :: g) r)) <|> k [] (c :: rest)
    else k [] (c :: rest)

/-- Greedy `p+`: like `greedyMany` but the group is nonempty. -/
def greedyPlus {α : Type} (p : Char → Bool) (s : Str) (k : Str → Str → Option α) :
    Option α :=
  match s with
  | [] => none
  | c :: rest => if p c then greedyMany p rest (fun g r => k (c :: g) r) else none

/-- Lazy `p*?`: shortest group first. -/
def lazyMany {α : Type} (p : Char → Bool) (s : Str) (k : Str → Str → Option α) :
    Option α :=
  match s with
  | [] => k [] []
  | c :: rest =>
    k [] (c :: rest) <|> (if p c then lazyMany p rest (fun g r => k (c :: g) r) else none)

/-- Lazy `p+?`: shortest nonempty group first. -/
def lazyPlus {α : Type} (p : Char → Bool) (s : Str) (k : Str → Str → Option α) :
    Option α :=
  match s with
  | [] => none
  | c :: rest => if p c then lazyMany p rest (fun g r => k (c :: g) r) else none

/-- Case-insensitive literal: consume `w` (given lower-cased) from the
head of `s`, comparing both sides lower-cased (`re.IGNORECASE`). -/
def litCi : Str → Str → Option Str
  | [], s => some s
  | _ :: _, [] => none
  | c :: cs, d :: ds => if c.toLower = d.toLower then litCi cs ds else none

/-- Case-sensitive literal. -/
def litEx : Str → Str → Option Str
  | [], s => some s
  | _ :: _, [] => none
  | c :: cs, d :: ds => if c = d then litEx cs ds else none

/-- `re.search`: try the pattern at each start position, leftmost
first. -/
def searchAll {α : Type} (f : Str → Option α) : Str → Option α
  | [] => f []
  | c :: rest => f (c :: rest) <|> searchAll f rest

/-- `.`: any character except a newline. -/
def notNl (c : Char) : Bool := c ≠ '\n'

/-! ### The SQL structural pattern (tab1.py line 91)

`SELECT\s+(.+?)\s+FROM\s+people(?:\s+WHERE\s+(.+?))?(?:\s+LIMIT\s+(\d+))?;?\s*$`
with `re.IGNORECASE`, applied with `re.search` to the whitespace-normalised
query.  Captures: (columns, optional where clause, optional limit). -/

/-- Captured groups of the SQL pattern. -/
abbrev SqlGroups := Str × Option Str × Option Str

/-- Tail `;?\s*$`: an optional semicolon (tried first, as `?` is greedy)
followed by whitespace and the end of the string.  When the head is `;`
the no-consume branch would have to match `;` against `\s*$` and fails,
so dropping the `;` is exhaustive. -/
def sqlEnd (g : SqlGroups) (s : Str) : Option SqlGroups :=
  match s with
  | ';' :: r => if r.all Char.isWhitespace then some g else none
  | _ => if s.all Char.isWhitespace then some g else none

/-- Optional group `(?:\s+LIMIT\s+(\d+))?` then `sqlEnd`; the with-group
branch is tried first. -/
def sqlLimit (g1 : Str) (g2 : Option Str) (s : Str) : Option SqlGroups :=
  (greedyPlus Char.isWhitespace s (fun _ r1 =>
    match litCi (("limit").data) r1 with
    | some r2 =>
      greedyPlus Char.isWhitespace r2 (fun _ r3 =>
        greedyPlus Char.isDigit r3 (fun d r4 => sqlEnd (g1, g2, some d) r4))
    | none => none))
  <|> sqlEnd (g1, g2, none) s

/-- Optional group `(?:\s+WHERE\s+(.+?))?` then `sqlLimit`. -/
def sqlWhere (g1 : Str) (s : Str) : Option SqlGroups :=
  (greedyPlus Char.isWhitespace s (fun _ r1 =>
    match litCi (("where").data) r1 with
    | some r2 =>
      greedyPlus Char.isWhitespace r2 (fun _ r3 =>
        lazyPlus notNl r3 (fun g2 r4 => sqlLimit g1 (some g2) r4))
    | none => none))
  <|> sqlLimit g1 none s

/-- The full SQL pattern anchored at one start position. -/
def sqlMatchAt (s : Str) : Option SqlGroups :=
  match litCi (("select").data) s with
  | none => none
  | some r1 =>
    greedyPlus Char.isWhitespace r1 (fun _ r2 =>
      lazyPlus notNl r2 (fun g1 r3 =>
        greedyPlus Char.isWhitespace r3 (fun _ r4 =>
          match litCi (("from").data) r4 with
          | none => none
          | some r5 =>
            greedyPlus Char.isWhitespace r5 (fun _ r6 =>
              match litCi (("people").data) r6 with
              | none => none
              | some r7 => sqlWhere g1 r7))))

/-- `re.search` of the SQL pattern. -/
def sqlSearch (s : Str) : Option SqlGroups := searchAll sqlMatchAt s

/-! ### The GraphQL structural pattern (tab1.py line 29)

`people\s*\(\s*where\s*:\s*{(.*?)}\s*\)\s*{(.*?)}` (case-sensitive),
applied with `re.search` to the whitespace-normalised query.  Captures:
(condition block, selection block). -/

/-- The GraphQL pattern anchored at one start position. -/
def gqlMatchAt (s : Str) : Option (Str × Str) :=
  match litEx (("people").data) s with
  | none => none
  | some r1 =>
    greedyMany Char.isWhitespace r1 (fun _ r2 =>
      match litEx (("(").data) r2 with
      | none => none
      | some r3 =>
        greedyMany Char.isWhitespace r3 (fun _ r4 =>
          match litEx (("where").data) r4 with
          | none => none
          | some r5 =>
            greedyMany Char.isWhitespace r5 (fun _ r6 =>
              match litEx ((":").data) r6 with
              | none => none
              | some r7 =>
                greedyMany Char.isWhitespace r7 (fun _ r8 =>
                  match litEx (("\x7b").data) r8 with
                  | none => none
                  | some r9 =>
                    lazyMany notNl r9 (fun g1 r10 =>
                      match litEx (("\x7d").data) r10 with
                      | none => none
                      | some r11 =>
                        greedyMany Char.isWhitespace r11 (fun _ r12 =>
                          match litEx ((")").data) r12 with
                          | none => none
                          | some r13 =>
                            greedyMany Char.isWhitespace r13 (fun _ r14 =>
                              match litEx (("\x7b").data) r14 with
                              | none => none
                              | some r15 =>
                                lazyMany notNl r15 (fun g2 r16 =>
                                  match litEx (("\x7d").data) r16 with
                                  | none => none
                                  | some _ => some (g1, g2)))))))))

/-- `re.search` of the GraphQL pattern. -/
def gqlSearch (s : Str) : Option (Str × Str) := searchAll gqlMatchAt s

/-! ### GraphQL condition scan (tab1.py line 34)

`re.findall(r'(\w+)\s*:\s*"([^"]+)"', cond_str)`: non-overlapping
leftmost matches.  For this pattern backtracking never changes the
result: after a shorter `\w+` prefix the next character is a word
character, which matches neither `\s*`'s continuation `:` nor `:`
itself; after a shorter `\s*` run the next character is whitespace, not
`:` (resp. not `"`); `[^"]+` is delimited by the following `"`.  The
matcher is therefore written deterministically with
`takeWhile`/`dropWhile`. -/

/-- Python `\w` (the engine's field names are ASCII). -/
def isWordChar (c : Char) : Bool := c.isAlphanum || c = '_'

/-- One anchored match of `(\w+)\s*:\s*"([^"]+)"`; returns the two
captures and the rest of the input after the match. -/
def matchKV (s : Str) : Option ((Str × Str) × Str) :=
  let f := s.takeWhile isWordChar
  if f.isEmpty then none
  else
    let s1 := (s.drop f.length).dropWhile Char.isWhitespace
    match s1 with
    | ':' :: s2 =>
      let s3 := s2.dropWhile Char.isWhitespace
      match s3 with
      | '"' :: s4 =>
        let v := s4.takeWhile (fun c => c ≠ '"')
        if v.isEmpty then none
        else
          match s4.drop v.length with
          | '"' :: s5 => some ((f, v), s5)
          | _ => none
      | _ => none
    | _ => none

/-- The `findall` scan.  The fuel argument starts at the input length;
since a successful match consumes at least one character (the field is
nonempty) and a failed position advances by one, the fuel never runs
out. -/
def findCondsGo : Nat → Str → List (Str × Str)
  | 0, _ => []
  | fuel + 1, s =>
    match s with
    | [] => []
    | _ :: rest =>
      match matchKV s with
      | some (fv, r) => fv :: findCondsGo fuel r
      | none => findCondsGo fuel rest

/-- `re.findall(r'(\w+)\s*:\s*"([^"]+)"', s)`. -/
def findConds (s : Str) : List (Str × Str) := findCondsGo s.length s

/-! ### SQL WHERE splitting and condition parsing (tab1.py lines 141-143) -/

/-- One anchored match of the separator `\s+AND\s+` (`re.IGNORECASE`),
returning the rest after the separator.  Deterministic for the same
reason as `matchKV`: a shorter leading `\s+` leaves a whitespace
character where `AND` must start, and the trailing `\s+` is maximal
because nothing follows it in the pattern. -/
def matchAndSep (s : Str) : Option Str :=
  match s with
  | c :: _ =>
    if c.isWhitespace then
      match litCi (("and").data) (s.dropWhile Char.isWhitespace) with
      | some s2 =>
        match s2 with
        | d :: _ => if d.isWhitespace then some (s2.dropWhile Char.isWhitespace) else none
        | [] => none
      | none => none
    else none
  | [] => none

/-- `re.split(r'\s+AND\s+', where_str, flags=re.IGNORECASE)`: pieces
between non-overlapping leftmost separator matches.  Fuel as in
`findCondsGo` (a separator consumes at least five characters). -/
def splitAndGo : Nat → Str → Str → List Str
  | 0, acc, s => [acc ++ s]
  | fuel + 1, acc, s =>
    match s with
    | [] => [acc]
    | c :: rest =>
      match matchAndSep s with
      | some r => acc :: splitAndGo fuel [] r
      | none => splitAndGo fuel (acc ++ [c]) rest

/-- `re.split(r'\s+AND\s+', s, flags=re.IGNORECASE)`. -/
def splitAnd (s : Str) : List Str := splitAndGo s.length [] s

/-- The alternation `(=|LIKE)` (`re.IGNORECASE`), alternatives in
pattern order; the capture is the text as matched (case preserved). -/
def opAlt {α : Type} (s : Str) (k : Str → Str → Option α) : Option α :=
  (match s with
   | '=' :: r => k ([('=')]) r
   | _ => none)
  <|> (match litCi (("like").data) s with
       | some r => k (s.take 4) r
       | none => none)

/-- `re.match(r"(\w+)\s*(=|LIKE)\s*'([^']+)'", cond, re.IGNORECASE)`:
anchored at the start, trailing text ignored.  Backtracking over `\w+`
matters here (`xLIKE'y'` parses as field `x`, operator `LIKE`), so the
greedy combinators are used.  Returns (field, operator, value). -/
def matchCondAt (s : Str) : Option (Str × Str × Str) :=
  greedyPlus isWordChar s (fun f r1 =>
    greedyMany Char.isWhitespace r1 (fun _ r2 =>
      opAlt r2 (fun op r3 =>
        greedyMany Char.isWhitespace r3 (fun _ r4 =>
          match r4 with
          | '\'' :: r5 =>
            greedyPlus (fun c => c ≠ '\'') r5 (fun v r6 =>
              match r6 with
              | '\'' :: _ => some (f, op, v)
              | _ => none)
          | _ => none))))

/-! ### LIKE evaluation (tab1.py lines 151-160) -/

/-- A `%` wildcard character. -/
def pctC (c : Char) : Bool := c = '%'

/-- Python `lstrip("%")`. -/
def stripPctL (s : Str) : Str := s.dropWhile pctC

/-- Python `rstrip("%")`. -/
def stripPctR (s : Str) : Str := (s.reverse.dropWhile pctC).reverse

/-- Python `strip("%")`: all leading and trailing `%` removed. -/
def stripPct (s : Str) : Str := stripPctR (stripPctL s)

/-- `val.startswith("%")`. -/
def startsPct (s : Str) : Bool :=
  match s with
  | c :: _ => pctC c
  | [] => false

/-- `val.endswith("%")`. -/
def endsPct (s : Str) : Bool := startsPct s.reverse

/-- One pattern character against one input character for the
`pandas.Series.str.contains` regex: `.` matches anything but a newline,
every other character matches literally.  The source hands
`val.strip("%")` to `str.contains`, whose default is `regex=True`; this
embedding implements the regex fragment in which the only
metacharacter is `.`, and every theorem evaluates it only on patterns
inside that fragment (`pyReMeta` guards the general statements). -/
def reCharMatch (p c : Char) : Bool := if p = '.' then notNl c else p == c

/-- Match the whole pattern at the head of the input. -/
def reMatchHere : Str → Str → Bool
  | [], _ => true
  | _ :: _, [] => false
  | p :: ps, c :: cs => reCharMatch p c && reMatchHere ps cs

/-- `re.search` for the fragment: try every start position. -/
def reSearch (pat s : Str) : Bool :=
  match s with
  | [] => reMatchHere pat []
  | _ :: rest => reMatchHere pat s || reSearch pat rest

/-- Python regular-expression metacharacters: a pattern free of these is
matched purely literally, where `reSearch` agrees with `re.search`. -/
def pyReMeta (c : Char) : Bool :=
  ([('.'), '^', '$', '*', '+', '?', '\x7b', '\x7d', '[', ']', '\\', '|', '(', ')']).contains c

/-- The four-way LIKE branch (tab1.py lines 152-160); `val` and `cell`
are the already lower-cased value and cell.  `%...%` goes to pandas
`str.contains` (a regex search), `...%` to `str.startswith`, `%...` to
`str.endswith` (both literal), anything else to `.eq`. -/
def evalLikeBranch (val cell : Str) : Bool :=
  if startsPct val && endsPct val then reSearch (stripPct val) cell
  else if endsPct val then (stripPctR val).isPrefixOf cell
  else if startsPct val then (stripPctL val).isSuffixOf cell
  else cell == val

/-- One SQL condition applied to one lower-cased cell (tab1.py lines
149-160): `=` is lower-cased equality, `LIKE` (any casing) the branch
above; the `if/elif` has no `else`, so an impossible operator leaves the
mask untouched (`true`). -/
def sqlCondEval (op value : Str) (cellLow : Str) : Bool :=
  if op = [('=')] then cellLow == lowerL value
  else if upperL op = (("LIKE")).data then evalLikeBranch (lowerL value) cellLow
  else true

/-! ### The SQL parser -/

/-- `cols_str.split(",")` — single-character split keeping empty
pieces. -/
def splitCommaAux : Str → Str → List Str
  | [], acc => [acc.reverse]
  | c :: rest, acc =>
    if c = ',' then acc.reverse :: splitCommaAux rest [] else splitCommaAux rest (c :: acc)

/-- Python `s.split(",")`. -/
def splitComma (s : Str) : List Str := splitCommaAux s []

/-- SQL selection resolution from a list of already-stripped names
(tab1.py lines 129-136): unresolved names dropped, empty result falls
back to all columns. -/
def sqlSelect (df : DataFrame) (names : List String) : List String :=
  let sel := names.filterMap (fun s => resolveSql df.cols s)
  if sel.isEmpty then df.cols else sel

/-- SQL selection resolution (tab1.py lines 126-136): `*` keeps all
columns; otherwise the comma-separated names are stripped and
resolved. -/
def sqlSelFields (df : DataFrame) (colsStr : Str) : List String :=
  if colsStr = [('*')] then df.cols
  else sqlSelect df ((splitComma colsStr).map (fun p => String.mk (trimL p)))

/-- The WHERE loop (tab1.py lines 142-162): for each segment, a failed
condition match appends a warning; an unresolved field is skipped; a
resolved field missing from the dataframe raises (pandas `KeyError`);
otherwise the segment's predicate is AND-ed into the mask. -/
def evalWhereGo (df : DataFrame) :
    List Str → List Bool → List String → Except String (List Bool × List String)
  | [], mask, ws => Except.ok (mask, ws)
  | seg :: rest, mask, ws =>
    match matchCondAt seg with
    | none => evalWhereGo df rest mask (ws ++ [(("Invalid condition: ")) ++ String.mk seg])
    | some (f, op, v) =>
      match resolveSql df.cols (String.mk f) with
      | none => evalWhereGo df rest mask ws
      | some col =>
        match df.cols.findIdx? (fun x => x == col) with
        | none => Except.error ((("KeyError: ")) ++ col)
        | some i =>
          evalWhereGo df rest
            (List.zipWith and mask
              (df.rows.map (fun r => sqlCondEval op v (lowerL (r.getD i ("")).data)))) ws

/-- The WHERE mask (tab1.py lines 138-162): all-true when there is no
WHERE clause, otherwise the loop over the `AND`-split segments. -/
def sqlWhereMask (df : DataFrame) (whereStr : Str) : Except String (List Bool × List String) :=
  if whereStr.isEmpty then Except.ok (df.rows.map (fun _ => true), [])
  else evalWhereGo df (splitAnd whereStr) (df.rows.map (fun _ => true)) []

/-- `df[mask]`: the rows at the true positions of the aligned mask. -/
def applyMask (rows : List (List String)) (mask : List Bool) : List (List String) :=
  ((rows.zip mask).filter (fun p => p.2)).map (fun p => p.1)

/-- Numeric value of a digit string. -/
def digitsToNat (s : Str) : Nat := s.foldl (fun n c => 10 * n + (c.toNat - 48)) 0

/-- `int(limit_str)` as it behaves on the strings reaching it: every
captured limit is a nonempty digit run (the regex group is `(\d+)`), on
which Python `int` returns the digit value; on anything else this model
fails like `int` raising `ValueError`. -/
def pyIntDigits (s : Str) : Option Nat :=
  if !s.isEmpty && s.all Char.isDigit then some (digitsToNat s) else none

/-- The LIMIT application (tab1.py lines 166-171): no limit string means
no truncation; a convertible limit truncates with `head` (which for the
nonnegative values arising here keeps the first `n` rows); a failed
conversion warns and ignores the limit. -/
def sqlApplyLimit (limitStr : Str) (rows : List (List String)) :
    List (List String) × List String :=
  if limitStr.isEmpty then (rows, [])
  else
    match pyIntDigits limitStr with
    | some n => (rows.take n, [])
    | none => (rows, [("Invalid limit value, ignoring limit.")])

/-- Result of `parse_sql_query`: filtered rows, selected columns, and
the warnings emitted on the way (`st.warning` calls). -/
structure SqlResult where
  rows : List (List String)
  sel : List String
  warns : List String
deriving DecidableEq

/-- `m.group(i).strip() if m.group(i) else ""` (tab1.py lines 96-97):
the stripped text of an optional capture. -/
def groupStr (g : Option Str) : Str :=
  match g with
  | some w => trimL w
  | none => []

/-- `parse_sql_query` (tab1.py lines 88-173). -/
def parse_sql_query (df : DataFrame) (query : String) : Except String SqlResult :=
  match sqlSearch (normalizeWs query.data) with
  | none => Except.error (("SQL query format not recognized."))
  | some (g1, g2, g3) =>
    let sel := sqlSelFields df (trimL g1)
    match sqlWhereMask df (groupStr g2) with
    | Except.error e => Except.error e
    | Except.ok mw =>
      let lr := sqlApplyLimit (groupStr g3) (applyMask df.rows mw.1)
      Except.ok ⟨lr.1, sel, mw.2 ++ lr.2⟩

/-! ### The GraphQL parser -/

/-- The parsed-condition step (tab1.py lines 35-40): a name ending in
`_startsWith` becomes a prefix condition on the base name (the
11-character suffix stripped), anything else an equality condition; the
operator tag is the source's string tag. -/
def gqlParsed (conds : List (String × String)) : List (String × String × String) :=
  conds.map (fun fv =>
    if (("_startsWith")).data.isSuffixOf fv.1.data then
      (String.mk (fv.1.data.take (fv.1.data.length - 11)), ("startsWith"), fv.2)
    else (fv.1, ("="), fv.2))

/-- One GraphQL condition against one lower-cased cell (tab1.py lines
73-76): case-insensitive equality or prefix; the `if/elif` has no
`else`. -/
def gqlCondRow (op value : String) (cellLow : String) : Bool :=
  if op == ("=") then cellLow == lowerS value
  else if op == ("startsWith") then (lowerS value).data.isPrefixOf cellLow.data
  else true

/-- The GraphQL mask loop (tab1.py lines 67-76): unresolved fields are
skipped, a resolved field missing from the dataframe raises (pandas
`KeyError`), resolved conditions are AND-ed into the mask. -/
def gqlMaskGo (df : DataFrame) :
    List (String × String × String) → List Bool → Except String (List Bool)
  | [], mask => Except.ok mask
  | c :: rest, mask =>
    match resolveGql df.cols c.1 with
    | none => gqlMaskGo df rest mask
    | some col =>
      match df.cols.findIdx? (fun x => x == col) with
      | none => Except.error ((("KeyError: ")) ++ col)
      | some i =>
        gqlMaskGo df rest
          (List.zipWith and mask
            (df.rows.map (fun r => gqlCondRow c.2.1 c.2.2 (lowerS (r.getD i (""))))))

/-- GraphQL selection resolution from a list of identifiers (tab1.py
lines 79-85): resolved ones kept, empty result falls back to all
columns. -/
def gqlSelect (df : DataFrame) (selected : List String) : List String :=
  let sel := selected.filterMap (fun s => resolveGql df.cols s)
  if sel.isEmpty then df.cols else sel

/-- GraphQL selection resolution (tab1.py lines 78-85):
whitespace-split identifiers (already stripped and nonempty after
`split()`), then `gqlSelect`. -/
def gqlSelFields (df : DataFrame) (selStr : Str) : List String :=
  gqlSelect df ((pySplitWs selStr).map (fun s => String.mk s))

/-- Result of `parse_graphql_query`: filtered rows and selected
columns. -/
structure QueryResult where
  rows : List (List String)
  sel : List String
deriving DecidableEq

/-- `parse_graphql_query` (tab1.py lines 27-86). -/
def parse_graphql_query (df : DataFrame) (query : String) : Except String QueryResult :=
  match gqlSearch (normalizeWs query.data) with
  | none => Except.error (("GraphQL query format not recognized."))
  | some (g1, g2) =>
    let parsed := gqlParsed ((findConds (trimL g1)).map (fun fv => (String.mk fv.1, String.mk fv.2)))
    match gqlMaskGo df parsed (df.rows.map (fun _ => true)) with
    | Except.error e => Except.error e
    | Except.ok mask => Except.ok ⟨applyMask df.rows mask, gqlSelFields df (trimL g2)⟩

/-! ### The dispatcher (tab1.py lines 221-242) -/

/-- What one query submission displays: a result table (rows and the
columns shown), an error message, or the enter-a-query prompt. -/
inductive Outcome where
  | table : List (List String) → List String → Outcome
  | errorOut : String → Outcome
  | prompt : Outcome
deriving DecidableEq

/-- `filt[sel]`: project the rows onto the selected columns. -/
def projectRows (cols : List String) (sel : List String) (rows : List (List String)) :
    List (List String) :=
  rows.map (fun r => sel.map (fun c => cellAt cols r c))

/-- The GraphQL branch of the dispatcher (tab1.py lines 224-229): parse,
display `filt[sel]`; any raised error — the format `ValueError` or a
projection `KeyError` — is caught and shown as `Error: ...` (the model
uses a fixed `KeyError` text where pandas composes one). -/
def runGql (df : DataFrame) (query : String) : Outcome :=
  match parse_graphql_query df query with
  | Except.ok r =>
    if r.sel.all (fun c => df.cols.contains c) then
      Outcome.table (projectRows df.cols r.sel r.rows) r.sel
    else Outcome.errorOut (("Error: KeyError: selection not in columns"))
  | Except.error e => Outcome.errorOut ((("Error: ")) ++ e)

/-- The SQL branch of the dispatcher (tab1.py lines 230-236). -/
def runSql (df : DataFrame) (query : String) : Outcome :=
  match parse_sql_query df query with
  | Except.ok r =>
    if r.sel.all (fun c => df.cols.contains c) then
      Outcome.table (projectRows df.cols r.sel r.rows) r.sel
    else Outcome.errorOut (("Error: KeyError: selection not in columns"))
  | Except.error e => Outcome.errorOut ((("Error: ")) ++ e)

/-- The free-text branch (tab1.py lines 237-240): no projection, all
columns shown. -/
def runFree (df : DataFrame) (query : String) : Outcome :=
  Outcome.table (filter_data_by_query df query) df.cols

/-- The dispatcher `app` (tab1.py lines 221-242): an empty string is
falsy (`if query:`) and shows the prompt; otherwise the stripped query
routes on a leading brace, then on a case-insensitive leading `SELECT`,
else to free text. -/
def app (df : DataFrame) (query : String) : Outcome :=
  if query = ("") then Outcome.prompt
  else if ([('\x7b')] : Str).isPrefixOf (trimL query.data) then runGql df query
  else if (("SELECT")).data.isPrefixOf (upperL (trimL query.data)) then runSql df query
  else runFree df query

/-! ### Specification-side predicates

Per-row restatements of the mask loops, used to express the claims'
"row kept iff all conditions hold" readings.  An unresolved field (or
one missing from the dataframe) contributes `true`, i.e. no
predicate. -/

/-- One raw GraphQL condition `name : "value"` read as the claim reads
it: a name ending in `_startsWith` is a case-insensitive prefix match on
the column resolved from the base name, any other name a
case-insensitive equality on the resolved column. -/
def gqlRawCondSat (df : DataFrame) (r : List String) (fv : String × String) : Bool :=
  if (("_startsWith")).data.isSuffixOf fv.1.data then
    match resolveGql df.cols (String.mk (fv.1.data.take (fv.1.data.length - 11))) with
    | none => true
    | some col =>
      match df.cols.findIdx? (fun x => x == col) with
      | none => true
      | some i => (lowerS fv.2).data.isPrefixOf (lowerS (r.getD i (""))).data
  else
    match resolveGql df.cols fv.1 with
    | none => true
    | some col =>
      match df.cols.findIdx? (fun x => x == col) with
      | none => true
      | some i => lowerS (r.getD i ("")) == lowerS fv.2

/-- One parsed GraphQL condition applied to one row. -/
def gqlCondSat (df : DataFrame) (r : List String) (c : String × String × String) : Bool :=
  match resolveGql df.cols c.1 with
  | none => true
  | some col =>
    match df.cols.findIdx? (fun x => x == col) with
    | none => true
    | some i => gqlCondRow c.2.1 c.2.2 (lowerS (r.getD i ("")))

/-- One SQL WHERE segment applied to one row: an unparsable or
unresolvable segment contributes no predicate. -/
def sqlSegSat (df : DataFrame) (r : List String) (seg : Str) : Bool :=
  match matchCondAt seg with
  | none => true
  | some (f, op, v) =>
    match resolveSql df.cols (String.mk f) with
    | none => true
    | some col =>
      match df.cols.findIdx? (fun x => x == col) with
      | none => true
      | some i => sqlCondEval op v (lowerL (r.getD i ("")).data)

/-- The warnings the WHERE loop emits: one per segment that fails the
condition pattern, in segment order. -/
def invalidWarns (segs : List Str) : List String :=
  (segs.filter (fun seg => (matchCondAt seg).isNone)).map
    (fun seg => (("Invalid condition: ")) ++ String.mk seg)

/-- The limit-capture property: the third SQL group, when present, is a
nonempty decimal-digit run. -/
def limitProp (c : Option Str) : Prop :=
  c = none ∨ ∃ d, c = some d ∧ d ≠ [] ∧ d.all Char.isDigit = true

/-- A parsed GraphQL condition does not hit the pandas `KeyError` path:
either its field is unresolved, or the resolved column is present in
the dataframe. -/
def gqlCondOk (df : DataFrame) (c : String × String × String) : Bool :=
  match resolveGql df.cols c.1 with
  | none => true
  | some col => (df.cols.findIdx? (fun x => x == col)).isSome

/-- A SQL WHERE segment does not hit the pandas `KeyError` path. -/
def sqlSegOk (df : DataFrame) (seg : Str) : Bool :=
  match matchCondAt seg with
  | none => true
  | some (f, _, _) =>
    match resolveSql df.cols (String.mk f) with
    | none => true
    | some col => (df.cols.findIdx? (fun x => x == col)).isSome

/-- A WHERE segment stays inside the domain where this embedding is
exact: a resolved field names a column present in the dataframe (no
pandas `KeyError` abort), and a LIKE value taking the containment
branch has a stripped lower-cased value free of regex metacharacters —
on such values pandas `str.contains` performs a plain substring search,
always compiles (no `re.error` abort), and agrees with `reSearch`. -/
def sqlSegSafe (df : DataFrame) (seg : Str) : Bool :=
  match matchCondAt seg with
  | none => true
  | some (f, op, v) =>
    (match resolveSql df.cols (String.mk f) with
     | none => true
     | some col => (df.cols.findIdx? (fun x => x == col)).isSome)
    && (if op = [('=')] then true
        else if upperL op = (("LIKE")).data then
          (if startsPct (lowerL v) && endsPct (lowerL v) then
            (stripPct (lowerL v)).all (fun c => !pyReMeta c)
          else true)
        else true)

/-- A small concrete dataset shared by the witness theorems. -/
def dfW : DataFrame :=
  ⟨[("City -MyData")], [[("Mesa")], [("Tucson")]]⟩

/-! ## Helper lemmas -/

theorem orElse_some {α : Type} {a b : Option α} {r : α} (h : (a <|> b) = some r) :
    a = some r ∨ (a = none ∧ b = some r) := by
  cases a with
  | none => exact Or.inr ⟨rfl, by simpa using h⟩
  | some v => exact Or.inl (by simpa using h)

theorem zipWith_and_map {β : Type} (l : List β) (f g : β → Bool) :
    List.zipWith and (l.map f) (l.map g) = l.map (fun x => f x && g x) := by
  induction l with
  | nil => rfl
  | cons a t ih => simp [ih]

/-! ## C1 -/

/-- C1: the free-text matcher returns exactly the rows of the dataset in
which every whitespace token of the lower-cased query occurs as a
substring of the row's lower-cased serialization (all cells joined by
one space, in column order); matching rows keep their relative order
and the displayed columns are always all columns. -/
theorem C1_free_text (df : DataFrame) (q : String) :
    runFree df q = Outcome.table (filter_data_by_query df q) df.cols
    ∧ (filter_data_by_query df q).Sublist df.rows
    ∧ ∀ row, row ∈ filter_data_by_query df q ↔
        (row ∈ df.rows ∧ ∀ t ∈ pySplitWs (lowerL q.data),
          hasSub (lowerL (rowSerial row).data) t = true) := by
  refine ⟨rfl, List.filter_sublist _, fun row => ?_⟩
  simp [filter_data_by_query, List.mem_filter]

/-! ## C3 -/

/-- C3 counterexample: with the schema column `First Name -MyData`, the
GraphQL alias name `firstName` resolves to that column but its other
casing `FIRSTNAME` resolves to nothing — GraphQL alias lookup is
case-sensitive, so field resolution is not case-insensitive as
claimed. -/
theorem C3_cex :
    resolveGql [("First Name -MyData")] (("firstName")) = some (("First Name -MyData"))
    ∧ resolveGql [("First Name -MyData")] (("FIRSTNAME")) = none := by
  exact ⟨by decide, by decide⟩

/-- C3 (amended): SQL field resolution is case-insensitive (names equal
up to case resolve identically); GraphQL alias lookup is case-sensitive
and any name missing from the alias table falls back to the normalized
match against dataset columns; in both parsers a field equal to a
column's normalized name (when not shadowed by an alias key) resolves
to a column with that normalized name. -/
theorem C3_resolution :
    (∀ cols (f g : String), lowerS f = lowerS g → resolveSql cols f = resolveSql cols g)
    ∧ (∀ cols (f : String), List.lookup f gql2df = none →
        resolveGql cols f = normFallback cols (lowerS f))
    ∧ (∀ cols (f : String), List.lookup (lowerS f) sql2df = none →
        resolveSql cols f = normFallback cols (lowerS f))
    ∧ (∀ cols (c : String), c ∈ cols → List.lookup (normKey c) gql2df = none →
        lowerS (normKey c) = normKey c →
        ∃ c2, resolveGql cols (normKey c) = some c2 ∧ normKey c2 = normKey c)
    ∧ (∀ cols (c : String), c ∈ cols → List.lookup (lowerS (normKey c)) sql2df = none →
        lowerS (normKey c) = normKey c →
        ∃ c2, resolveSql cols (normKey c) = some c2 ∧ normKey c2 = normKey c) := by
  have hfall : ∀ (cols : List String) (key : String), (∃ c, c ∈ cols ∧ normKey c = key) →
      ∃ c2, normFallback cols key = some c2 ∧ normKey c2 = key := by
    intro cols key ⟨c, hc, hk⟩
    have hsome : (cols.reverse.find? (fun x => normKey x == key)).isSome := by
      rw [List.find?_isSome]
      exact ⟨c, List.mem_reverse.mpr hc, by simp [hk]⟩
    obtain ⟨c2, hc2⟩ := Option.isSome_iff_exists.mp hsome
    refine ⟨c2, hc2, ?_⟩
    have := List.find?_some hc2
    simpa using this
  refine ⟨?_, ?_, ?_, ?_, ?_⟩
  · intro cols f g h
    unfold resolveSql
    rw [h]
  · intro cols f h
    unfold resolveGql
    rw [h]
  · intro cols f h
    unfold resolveSql
    rw [h]
  · intro cols c hmem halias hlow
    unfold resolveGql
    rw [halias, hlow]
    exact hfall cols (normKey c) ⟨c, hmem, rfl⟩
  · intro cols c hmem halias hlow
    unfold resolveSql
    rw [halias, hlow]
    exact hfall cols (normKey c) ⟨c, hmem, rfl⟩

/-- Witness for C3's amended statement at concrete inputs. -/
theorem C3_resolution_witness :
    (lowerS (("PHONE")) = lowerS (("phone"))
      ∧ resolveSql [("Notes")] (("PHONE")) = resolveSql [("Notes")] (("phone")))
    ∧ (List.lookup (normKey (("Notes"))) gql2df = none
      ∧ lowerS (normKey (("Notes"))) = normKey (("Notes"))
      ∧ ∃ c2, resolveGql [("Notes")] (normKey (("Notes"))) = some c2
          ∧ normKey c2 = normKey (("Notes"))) := by
  refine ⟨⟨by decide, C3_resolution.1 [("Notes")] (("PHONE")) (("phone")) (by decide)⟩,
    ⟨by decide, by decide,
      (C3_resolution.2.2.2.1) [("Notes")] (("Notes")) (by simp) (by decide) (by decide)⟩⟩

/-! ## C5 -/

/-- C5 counterexample: a whitespace-only query is truthy in Python, so
the dispatcher does not show the prompt; it routes to the free-text
engine, whose empty token list matches every row. -/
theorem C5_cex :
    app dfW (" ") = Outcome.table ([[("Mesa")], [("Tucson")]]) ([("City -MyData")])
    ∧ app dfW (" ") ≠ Outcome.prompt := by
  exact ⟨by decide, by decide⟩

/-- C5 (amended): the empty query shows the prompt and no engine runs;
every nonempty query — including whitespace-only ones — is routed to
exactly one engine: GraphQL when the stripped query starts with a
brace, else SQL when its upper-casing starts with `SELECT`, else free
text. -/
theorem C5_routing :
    (∀ df, app df ("") = Outcome.prompt)
    ∧ (∀ df (q : String), q ≠ ("") →
        ([('\x7b')] : Str).isPrefixOf (trimL q.data) = true →
        app df q = runGql df q)
    ∧ (∀ df (q : String), q ≠ ("") →
        ([('\x7b')] : Str).isPrefixOf (trimL q.data) = false →
        (("SELECT")).data.isPrefixOf (upperL (trimL q.data)) = true →
        app df q = runSql df q)
    ∧ (∀ df (q : String), q ≠ ("") →
        ([('\x7b')] : Str).isPrefixOf (trimL q.data) = false →
        (("SELECT")).data.isPrefixOf (upperL (trimL q.data)) = false →
        app df q = runFree df q) := by
  refine ⟨fun df => rfl, fun df q h1 h2 => ?_, fun df q h1 h2 h3 => ?_,
    fun df q h1 h2 h3 => ?_⟩
  · simp [app, h1, h2]
  · simp [app, h1, h2, h3]
  · simp [app, h1, h2, h3]

/-- Witness for C5's amended statement at concrete inputs. -/
theorem C5_routing_witness :
    ((("\x7bq")) ≠ ("") ∧ app dfW (("\x7bq")) = runGql dfW (("\x7bq")))
    ∧ ((("select *")) ≠ ("") ∧ app dfW (("select *")) = runSql dfW (("select *")))
    ∧ ((("john")) ≠ ("") ∧ app dfW (("john")) = runFree dfW (("john"))) := by
  refine ⟨⟨by decide, C5_routing.2.1 dfW (("\x7bq")) (by decide) (by decide)⟩,
    ⟨by decide, C5_routing.2.2.1 dfW (("select *")) (by decide) (by decide) (by decide)⟩,
    ⟨by decide, C5_routing.2.2.2 dfW (("john")) (by decide) (by decide) (by decide)⟩⟩

/-! ## C6 -/

/-- C6: when the routed structured parser's structural pattern finds no
match, the parser's format error is caught at the dispatch boundary and
shown as a single error message; no table is produced, the query is not
re-routed, and (the model being a total function) no exception
escapes. -/
theorem C6_format_errors :
    (∀ df (q : String), q ≠ ("") →
        ([('\x7b')] : Str).isPrefixOf (trimL q.data) = true →
        gqlSearch (normalizeWs q.data) = none →
        app df q = Outcome.errorOut (("Error: GraphQL query format not recognized.")))
    ∧ (∀ df (q : String), q ≠ ("") →
        ([('\x7b')] : Str).isPrefixOf (trimL q.data) = false →
        (("SELECT")).data.isPrefixOf (upperL (trimL q.data)) = true →
        sqlSearch (normalizeWs q.data) = none →
        app df q = Outcome.errorOut (("Error: SQL query format not recognized."))) := by
  constructor
  · intro df q h1 h2 h3
    simp only [app, if_neg h1, if_pos h2, runGql, parse_graphql_query, h3]
    decide
  · intro df q h1 h2 h3 h4
    simp only [app, if_neg h1, h2, Bool.false_eq_true, if_false, if_pos h3, runSql,
      parse_sql_query, h4]
    decide

/-- Witness for C6 at concrete unparsable inputs. -/
theorem C6_format_errors_witness :
    ((("\x7bx")) ≠ ("")
      ∧ ([('\x7b')] : Str).isPrefixOf (trimL (("\x7bx")).data) = true
      ∧ gqlSearch (normalizeWs (("\x7bx")).data) = none
      ∧ app dfW (("\x7bx")) = Outcome.errorOut (("Error: GraphQL query format not recognized.")))
    ∧ ((("SELECT")) ≠ ("")
      ∧ sqlSearch (normalizeWs (("SELECT")).data) = none
      ∧ app dfW (("SELECT")) = Outcome.errorOut (("Error: SQL query format not recognized."))) := by
  refine ⟨⟨by decide, by decide, by decide,
      C6_format_errors.1 dfW (("\x7bx")) (by decide) (by decide) (by decide)⟩,
    ⟨by decide, by decide,
      C6_format_errors.2 dfW (("SELECT")) (by decide) (by decide) (by decide) (by decide)⟩⟩

/-! ## C7 -/

/-- C7 counterexample: on a dataset with no columns (the loader's
documented failure value is an empty dataframe) the all-columns
fallback is also empty, so the result has zero output columns, not at
least one. -/
theorem C7_cex :
    parse_graphql_query (⟨[], []⟩) (("\x7b people(where:\x7b\x7d)\x7bbogus\x7d \x7d"))
      = Except.ok (QueryResult.mk [] [])
    ∧ (QueryResult.mk ([] : List (List String)) ([] : List String)).sel.length = 0 := by
  exact ⟨rfl, rfl⟩

/-- C7 (amended): in both structured parsers an unresolvable condition
field is silently skipped and an unresolvable selection field is
dropped, with the projection falling back to all dataset columns when
every requested field is unresolvable; whenever the dataset has at
least one column the output column list is nonempty. -/
theorem C7_fallback (df : DataFrame) :
    (∀ (c : String × String × String) rest mask, resolveGql df.cols c.1 = none →
        gqlMaskGo df (c :: rest) mask = gqlMaskGo df rest mask)
    ∧ (∀ (seg : Str) rest mask ws (f op v : Str), matchCondAt seg = some (f, op, v) →
        resolveSql df.cols (String.mk f) = none →
        evalWhereGo df (seg :: rest) mask ws = evalWhereGo df rest mask ws)
    ∧ (∀ (s : String) ss, resolveGql df.cols s = none →
        gqlSelect df (s :: ss) = gqlSelect df ss)
    ∧ (∀ (s : String) ss, resolveSql df.cols s = none →
        sqlSelect df (s :: ss) = sqlSelect df ss)
    ∧ (∀ ss, (∀ s ∈ ss, resolveGql df.cols s = none) → gqlSelect df ss = df.cols)
    ∧ (∀ ss, (∀ s ∈ ss, resolveSql df.cols s = none) → sqlSelect df ss = df.cols)
    ∧ (∀ ss, df.cols ≠ [] → gqlSelect df ss ≠ [])
    ∧ (∀ ss, df.cols ≠ [] → sqlSelect df ss ≠ [])
    ∧ (∀ selStr, df.cols ≠ [] → gqlSelFields df selStr ≠ [])
    ∧ (∀ colsStr, df.cols ≠ [] → sqlSelFields df colsStr ≠ []) := by
  have hg : ∀ ss, df.cols ≠ [] → gqlSelect df ss ≠ [] := by
    intro ss hcols
    unfold gqlSelect
    by_cases hse : (ss.filterMap (fun s => resolveGql df.cols s)).isEmpty
    · simp only [hse, if_true]
      exact hcols
    · simp only [hse, Bool.false_eq_true, if_false]
      intro he
      exact hse (by simp [he])
  have hs : ∀ ss, df.cols ≠ [] → sqlSelect df ss ≠ [] := by
    intro ss hcols
    unfold sqlSelect
    by_cases hse : (ss.filterMap (fun s => resolveSql df.cols s)).isEmpty
    · simp only [hse, if_true]
      exact hcols
    · simp only [hse, Bool.false_eq_true, if_false]
      intro he
      exact hse (by simp [he])
  refine ⟨?_, ?_, ?_, ?_, ?_, ?_, hg, hs, ?_, ?_⟩
  · intro c rest mask h
    simp [gqlMaskGo, h]
  · intro seg rest mask ws f op v hm hr
    simp [evalWhereGo, hm, hr]
  · intro s ss h
    simp [gqlSelect, List.filterMap_cons, h]
  · intro s ss h
    simp [sqlSelect, List.filterMap_cons, h]
  · intro ss h
    simp [gqlSelect, List.filterMap_eq_nil_iff.mpr h]
  · intro ss h
    simp [sqlSelect, List.filterMap_eq_nil_iff.mpr h]
  · intro selStr hcols
    exact hg _ hcols
  · intro colsStr hcols
    unfold sqlSelFields
    by_cases hstar : colsStr = [('*')]
    · simp only [hstar, if_pos rfl]
      exact hcols
    · simp only [if_neg hstar]
      exact hs _ hcols

/-- Witness for C7's amended statement at concrete inputs. -/
theorem C7_fallback_witness :
    (resolveGql dfW.cols (("nope")) = none
      ∧ gqlMaskGo dfW [((("nope")), (("=")), (("x")))] [true, true]
          = gqlMaskGo dfW [] [true, true])
    ∧ (dfW.cols ≠ [] ∧ gqlSelFields dfW ((("bogus")).data) ≠ []) := by
  refine ⟨⟨by decide, (C7_fallback dfW).1 _ [] [true, true] (by decide)⟩,
    ⟨by decide, (C7_fallback dfW).2.2.2.2.2.2.2.2.1 _ (by decide)⟩⟩

/-! ## C8 and C9: mask-loop characterizations -/

theorem gqlMaskGo_spec (df : DataFrame) :
    ∀ (parsed : List (String × String × String)) (p : List String → Bool),
      parsed.all (gqlCondOk df) = true →
      gqlMaskGo df parsed (df.rows.map p) =
        Except.ok (df.rows.map (fun r => p r && parsed.all (fun c => gqlCondSat df r c))) := by
  intro parsed
  induction parsed with
  | nil =>
    intro p _
    simp [gqlMaskGo]
  | cons c rest ih =>
    intro p h
    rw [List.all_cons] at h
    obtain ⟨hc, hrest⟩ := Bool.and_eq_true_iff.mp h
    cases hres : resolveGql df.cols c.1 with
    | none =>
      have step : gqlMaskGo df (c :: rest) (df.rows.map p) = gqlMaskGo df rest (df.rows.map p) := by
        simp [gqlMaskGo, hres]
      rw [step, ih p hrest]
      congr 1
      apply List.map_congr_left
      intro r _
      simp [List.all_cons, gqlCondSat, hres]
    | some col =>
      have hidx : (df.cols.findIdx? (fun x => x == col)).isSome = true := by
        unfold gqlCondOk at hc
        rw [hres] at hc
        exact hc
      obtain ⟨i, hi⟩ := Option.isSome_iff_exists.mp hidx
      have step : gqlMaskGo df (c :: rest) (df.rows.map p)
          = gqlMaskGo df rest (List.zipWith and (df.rows.map p)
              (df.rows.map (fun r => gqlCondRow c.2.1 c.2.2 (lowerS (r.getD i ("")))))) := by
        simp [gqlMaskGo, hres, hi]
      rw [step, zipWith_and_map,
        ih (fun r => p r && gqlCondRow c.2.1 c.2.2 (lowerS (r.getD i ("")))) hrest]
      congr 1
      apply List.map_congr_left
      intro r _
      simp [List.all_cons, gqlCondSat, hres, hi, Bool.and_assoc]

theorem evalWhereGo_spec (df : DataFrame) :
    ∀ (segs : List Str) (p : List String → Bool) (ws0 : List String),
      segs.all (sqlSegOk df) = true →
      evalWhereGo df segs (df.rows.map p) ws0 =
        Except.ok (df.rows.map (fun r => p r && segs.all (fun seg => sqlSegSat df r seg)),
          ws0 ++ invalidWarns segs) := by
  intro segs
  induction segs with
  | nil =>
    intro p ws0 _
    simp [evalWhereGo, invalidWarns]
  | cons seg rest ih =>
    intro p ws0 h
    rw [List.all_cons] at h
    obtain ⟨hc, hrest⟩ := Bool.and_eq_true_iff.mp h
    cases hm : matchCondAt seg with
    | none =>
      have step : evalWhereGo df (seg :: rest) (df.rows.map p) ws0
          = evalWhereGo df rest (df.rows.map p)
              (ws0 ++ [(("Invalid condition: ")) ++ String.mk seg]) := by
        simp [evalWhereGo, hm]
      rw [step, ih p _ hrest]
      have hmap : (df.rows.map (fun r => p r && rest.all (fun s => sqlSegSat df r s)))
          = df.rows.map (fun r => p r && (seg :: rest).all (fun s => sqlSegSat df r s)) := by
        apply List.map_congr_left
        intro r _
        simp [List.all_cons, sqlSegSat, hm]
      rw [hmap]
      have hw : invalidWarns (seg :: rest)
          = ((("Invalid condition: ")) ++ String.mk seg) :: invalidWarns rest := by
        simp [invalidWarns, List.filter_cons, hm]
      rw [hw, List.append_assoc]
      rfl
    | some fopv =>
      obtain ⟨f, op, v⟩ := fopv
      cases hr : resolveSql df.cols (String.mk f) with
      | none =>
        have step : evalWhereGo df (seg :: rest) (df.rows.map p) ws0
            = evalWhereGo df rest (df.rows.map p) ws0 := by
          simp [evalWhereGo, hm, hr]
        rw [step, ih p _ hrest]
        have hw : invalidWarns (seg :: rest) = invalidWarns rest := by
          simp [invalidWarns, List.filter_cons, hm]
        rw [hw]
        congr 1
        congr 1
        apply List.map_congr_left
        intro r _
        simp [List.all_cons, sqlSegSat, hm, hr]
      | some col =>
        have hidx : (df.cols.findIdx? (fun x => x == col)).isSome = true := by
          simp only [sqlSegOk, hm, hr] at hc
          exact hc
        obtain ⟨i, hi⟩ := Option.isSome_iff_exists.mp hidx
        have step : evalWhereGo df (seg :: rest) (df.rows.map p) ws0
            = evalWhereGo df rest (List.zipWith and (df.rows.map p)
                (df.rows.map (fun r => sqlCondEval op v (lowerL (r.getD i ("")).data)))) ws0 := by
          simp [evalWhereGo, hm, hr, hi]
        rw [step, zipWith_and_map,
          ih (fun r => p r && sqlCondEval op v (lowerL (r.getD i ("")).data)) _ hrest]
        have hw : invalidWarns (seg :: rest) = invalidWarns rest := by
          simp [invalidWarns, List.filter_cons, hm]
        rw [hw]
        congr 1
        congr 1
        apply List.map_congr_left
        intro r _
        simp [List.all_cons, sqlSegSat, hm, hr, hi, Bool.and_assoc]

theorem sqlSegSafe_ok (df : DataFrame) (seg : Str) (h : sqlSegSafe df seg = true) :
    sqlSegOk df seg = true := by
  cases hm : matchCondAt seg with
  | none => simp [sqlSegOk, hm]
  | some fopv =>
    obtain ⟨f, op, v⟩ := fopv
    simp only [sqlSegSafe, hm] at h
    simp only [sqlSegOk, hm]
    exact (Bool.and_eq_true_iff.mp h).1

/-- C8 counterexample: a malformed segment only warns, but the query
can still abort instead of returning its matching rows — here the
remaining well-shaped condition resolves through the alias table to a
column absent from the dataframe, so `df[df_field]` raises a pandas
`KeyError` caught at the dispatch boundary, and no rows are returned.
(pandas `str.contains` raising `re.error` on a LIKE value that is an
invalid regex, e.g. an unbalanced parenthesis, is a second abort path;
the amended statement's guard excludes both.) -/
theorem C8_cex :
    matchCondAt ((("badcondition")).data) = none
    ∧ (matchCondAt ((("firstname = \x27x\x27")).data)).isSome = true
    ∧ parse_sql_query dfW
        (("SELECT * FROM people WHERE badcondition AND firstname = \x27x\x27"))
      = Except.error (("KeyError: First Name -MyData")) := by
  exact ⟨by decide, by decide, by rfl⟩

/-- C8 (amended): splitting the WHERE clause on `AND`, every segment
that fails the `field (=|LIKE) 'value'` shape contributes a warning and
no predicate, while the remaining conditions all apply and the query
returns its matching rows — provided no well-shaped segment aborts the
evaluation: each resolved field must name a column present in the
dataframe (else pandas raises `KeyError`), and each LIKE value taking
the containment branch must be free of regex metacharacters after
wildcard stripping (else pandas `str.contains` either applies regex
semantics or raises `re.error`; on metacharacter-free values it is a
plain substring search, exactly as embedded).  Under that guard the
loop returns the conjunction mask of the per-segment predicates
together with one invalid-condition warning per unparsable segment. -/
theorem C8_where_segments (df : DataFrame) (segs : List Str)
    (h : segs.all (sqlSegSafe df) = true) :
    evalWhereGo df segs (df.rows.map (fun _ => true)) [] =
      Except.ok (df.rows.map (fun r => segs.all (fun seg => sqlSegSat df r seg)),
        invalidWarns segs)
    ∧ ∀ seg ∈ segs, matchCondAt seg = none →
        ((("Invalid condition: ")) ++ String.mk seg) ∈ invalidWarns segs := by
  have hok : segs.all (sqlSegOk df) = true := by
    rw [List.all_eq_true] at h ⊢
    exact fun seg hs => sqlSegSafe_ok df seg (h seg hs)
  constructor
  · have hs := evalWhereGo_spec df segs (fun _ => true) [] hok
    simpa using hs
  · intro seg hs hm
    unfold invalidWarns
    exact List.mem_map_of_mem _ (List.mem_filter.mpr ⟨hs, by simp [hm]⟩)

/-- Witness for C8 on the spec's malformed-condition scenario. -/
theorem C8_where_segments_witness :
    (([(("city LIKE \x27Mesa\x27")).data, (("badcondition")).data].all (sqlSegSafe dfW)) = true)
    ∧ evalWhereGo dfW [(("city LIKE \x27Mesa\x27")).data, (("badcondition")).data]
        (dfW.rows.map (fun _ => true)) [] =
      Except.ok (dfW.rows.map (fun r =>
          ([(("city LIKE \x27Mesa\x27")).data, (("badcondition")).data]).all
            (fun seg => sqlSegSat dfW r seg)),
        invalidWarns [(("city LIKE \x27Mesa\x27")).data, (("badcondition")).data]) := by
  exact ⟨by decide,
    (C8_where_segments dfW [(("city LIKE \x27Mesa\x27")).data, (("badcondition")).data]
      (by decide)).1⟩

theorem gqlCondRow_startsW (v cell : String) :
    gqlCondRow (("startsWith")) v cell = (lowerS v).data.isPrefixOf cell.data := by
  unfold gqlCondRow
  rw [if_neg (by decide), if_pos (by decide)]

theorem gqlCondRow_eq (v cell : String) :
    gqlCondRow (("=")) v cell = (cell == lowerS v) := by
  unfold gqlCondRow
  rw [if_pos (by decide)]

/-- C9: in the GraphQL parser every condition whose name ends in
`_startsWith` is evaluated as a case-insensitive prefix match on the
column resolved from the base name (suffix stripped), every other
condition as case-insensitive equality on the stringified cell, and the
row mask is the conjunction of all resolved conditions. -/
theorem C9_gql_conditions (df : DataFrame) (conds : List (String × String))
    (h : (gqlParsed conds).all (gqlCondOk df) = true) :
    gqlMaskGo df (gqlParsed conds) (df.rows.map (fun _ => true)) =
      Except.ok (df.rows.map (fun r => conds.all (fun fv => gqlRawCondSat df r fv))) := by
  rw [gqlMaskGo_spec df (gqlParsed conds) (fun _ => true) h]
  congr 1
  apply List.map_congr_left
  intro r _
  rw [Bool.true_and]
  have hpt : ∀ fv : String × String,
      gqlCondSat df r (if (("_startsWith")).data.isSuffixOf fv.1.data then
          (String.mk (fv.1.data.take (fv.1.data.length - 11)), ("startsWith"), fv.2)
        else (fv.1, ("="), fv.2)) = gqlRawCondSat df r fv := by
    intro fv
    by_cases hsuf : (("_startsWith")).data.isSuffixOf fv.1.data = true
    · rw [if_pos hsuf]
      unfold gqlCondSat gqlRawCondSat
      rw [if_pos hsuf]
      cases hres : resolveGql df.cols (String.mk (fv.1.data.take (fv.1.data.length - 11))) with
      | none => simp [hres]
      | some col =>
        cases hidx : df.cols.findIdx? (fun x => x == col) with
        | none => simp [hres, hidx]
        | some i => simp [hres, hidx, gqlCondRow_startsW]
    · rw [if_neg hsuf]
      unfold gqlCondSat gqlRawCondSat
      rw [if_neg hsuf]
      cases hres : resolveGql df.cols fv.1 with
      | none => simp [hres]
      | some col =>
        cases hidx : df.cols.findIdx? (fun x => x == col) with
        | none => simp [hres, hidx]
        | some i => simp [hres, hidx, gqlCondRow_eq]
  have hall : ∀ cs : List (String × String),
      ((gqlParsed cs).all fun c => gqlCondSat df r c)
        = cs.all fun fv => gqlRawCondSat df r fv := by
    intro cs
    induction cs with
    | nil => rfl
    | cons fv rest ihc =>
      have hcons : gqlParsed (fv :: rest)
          = (if (("_startsWith")).data.isSuffixOf fv.1.data then
              (String.mk (fv.1.data.take (fv.1.data.length - 11)), ("startsWith"), fv.2)
            else (fv.1, ("="), fv.2)) :: gqlParsed rest := rfl
      rw [hcons, List.all_cons, List.all_cons, ihc, hpt fv]
  exact hall conds

/-- Witness for C9 on the spec's GraphQL scenario conditions. -/
theorem C9_gql_conditions_witness :
    ((gqlParsed [((("city_startsWith")), (("Me")))]).all (gqlCondOk dfW) = true)
    ∧ gqlMaskGo dfW (gqlParsed [((("city_startsWith")), (("Me")))])
        (dfW.rows.map (fun _ => true)) =
      Except.ok (dfW.rows.map (fun r =>
        ([((("city_startsWith")), (("Me")))]).all (fun fv => gqlRawCondSat dfW r fv))) := by
  exact ⟨by decide,
    C9_gql_conditions dfW [((("city_startsWith")), (("Me")))] (by decide)⟩

/-! ## C10 and C4: what the SQL pattern can capture -/

theorem greedyMany_some {α : Type} (p : Char → Bool) :
    ∀ (s : Str) (k : Str → Str → Option α) (r : α), greedyMany p s k = some r →
      ∃ g t, g.all p = true ∧ k g t = some r := by
  intro s
  induction s with
  | nil =>
    intro k r h
    exact ⟨[], [], rfl, h⟩
  | cons c rest ih =>
    intro k r h
    unfold greedyMany at h
    by_cases hc : p c = true
    · rw [if_pos hc] at h
      rcases orElse_some h with h1 | ⟨_, h2⟩
      · obtain ⟨g, t, hall, hk⟩ := ih _ _ h1
        exact ⟨c :: g, t, by simp [hc, hall], hk⟩
      · exact ⟨[], c :: rest, rfl, h2⟩
    · rw [if_neg hc] at h
      exact ⟨[], c :: rest, rfl, h⟩

theorem greedyPlus_some {α : Type} (p : Char → Bool) (s : Str) (k : Str → Str → Option α)
    (r : α) (h : greedyPlus p s k = some r) :
    ∃ g t, g ≠ [] ∧ g.all p = true ∧ k g t = some r := by
  cases s with
  | nil => exact absurd h (by simp [greedyPlus])
  | cons c rest =>
    replace h : (if p c = true then greedyMany p rest (fun g r2 => k (c :: g) r2) else none)
        = some r := h
    by_cases hc : p c = true
    · rw [if_pos hc] at h
      obtain ⟨g, t, hall, hk⟩ := greedyMany_some p rest _ r h
      exact ⟨c :: g, t, by simp, by simp [hc, hall], hk⟩
    · rw [if_neg hc] at h
      exact absurd h (by simp)

theorem lazyMany_some {α : Type} (p : Char → Bool) :
    ∀ (s : Str) (k : Str → Str → Option α) (r : α), lazyMany p s k = some r →
      ∃ g t, k g t = some r := by
  intro s
  induction s with
  | nil =>
    intro k r h
    exact ⟨[], [], h⟩
  | cons c rest ih =>
    intro k r h
    unfold lazyMany at h
    rcases orElse_some h with h1 | ⟨_, h2⟩
    · exact ⟨[], c :: rest, h1⟩
    · by_cases hc : p c = true
      · rw [if_pos hc] at h2
        obtain ⟨g, t, hk⟩ := ih _ _ h2
        exact ⟨c :: g, t, hk⟩
      · rw [if_neg hc] at h2
        exact absurd h2 (by simp)

theorem lazyPlus_some {α : Type} (p : Char → Bool) (s : Str) (k : Str → Str → Option α)
    (r : α) (h : lazyPlus p s k = some r) : ∃ g t, k g t = some r := by
  cases s with
  | nil => exact absurd h (by simp [lazyPlus])
  | cons c rest =>
    replace h : (if p c = true then lazyMany p rest (fun g r2 => k (c :: g) r2) else none)
        = some r := h
    by_cases hc : p c = true
    · rw [if_pos hc] at h
      obtain ⟨g, t, hk⟩ := lazyMany_some p rest _ r h
      exact ⟨c :: g, t, hk⟩
    · rw [if_neg hc] at h
      exact absurd h (by simp)

theorem searchAll_some {α : Type} (f : Str → Option α) :
    ∀ (s : Str) (r : α), searchAll f s = some r → ∃ t, f t = some r := by
  intro s
  induction s with
  | nil =>
    intro r h
    exact ⟨[], h⟩
  | cons c rest ih =>
    intro r h
    unfold searchAll at h
    rcases orElse_some h with h1 | ⟨_, h2⟩
    · exact ⟨c :: rest, h1⟩
    · exact ih _ h2

theorem sqlEnd_some (g : SqlGroups) (s : Str) (r : SqlGroups)
    (h : sqlEnd g s = some r) : r = g := by
  unfold sqlEnd at h
  split at h <;> split at h <;> simp_all

theorem sqlLimit_some (g1 : Str) (g2 : Option Str) (s : Str) (a : Str) (b : Option Str)
    (c : Option Str) (h : sqlLimit g1 g2 s = some (a, b, c)) :
    a = g1 ∧ b = g2 ∧ limitProp c := by
  unfold sqlLimit at h
  rcases orElse_some h with h1 | ⟨_, h2⟩
  · obtain ⟨g, t, _, _, hk⟩ := greedyPlus_some _ _ _ _ h1
    cases hlit : litCi (("limit")).data t with
    | none =>
      rw [hlit] at hk
      exact absurd hk (by simp)
    | some r2 =>
      rw [hlit] at hk
      obtain ⟨g', t', _, _, hk'⟩ := greedyPlus_some _ _ _ _ hk
      obtain ⟨d, t2, hdne, hdall, hk2⟩ := greedyPlus_some _ _ _ _ hk'
      have heq := sqlEnd_some _ _ _ hk2
      rw [Prod.mk.injEq, Prod.mk.injEq] at heq
      obtain ⟨ha, hb, hc⟩ := heq
      exact ⟨ha, hb, Or.inr ⟨d, hc, hdne, hdall⟩⟩
  · have heq := sqlEnd_some _ _ _ h2
    rw [Prod.mk.injEq, Prod.mk.injEq] at heq
    obtain ⟨ha, hb, hc⟩ := heq
    exact ⟨ha, hb, Or.inl hc⟩

theorem sqlWhere_some (g1 : Str) (s : Str) (a : Str) (b : Option Str) (c : Option Str)
    (h : sqlWhere g1 s = some (a, b, c)) : a = g1 ∧ limitProp c := by
  unfold sqlWhere at h
  rcases orElse_some h with h1 | ⟨_, h2⟩
  · obtain ⟨g, t, _, _, hk⟩ := greedyPlus_some _ _ _ _ h1
    cases hlit : litCi (("where")).data t with
    | none =>
      rw [hlit] at hk
      exact absurd hk (by simp)
    | some r2 =>
      rw [hlit] at hk
      obtain ⟨g', t', _, _, hk'⟩ := greedyPlus_some _ _ _ _ hk
      obtain ⟨g2', t2, hk2⟩ := lazyPlus_some _ _ _ _ hk'
      obtain ⟨ha, _, hc⟩ := sqlLimit_some _ _ _ _ _ _ hk2
      exact ⟨ha, hc⟩
  · obtain ⟨ha, _, hc⟩ := sqlLimit_some _ _ _ _ _ _ h2
    exact ⟨ha, hc⟩

theorem sqlMatchAt_limit (s : Str) (a : Str) (b : Option Str) (c : Option Str)
    (h : sqlMatchAt s = some (a, b, c)) : limitProp c := by
  unfold sqlMatchAt at h
  cases hsel : litCi (("select")).data s with
  | none =>
    rw [hsel] at h
    exact absurd h (by simp)
  | some r1 =>
    rw [hsel] at h
    obtain ⟨g, t, _, _, hk⟩ := greedyPlus_some _ _ _ _ h
    obtain ⟨g1', t', hk'⟩ := lazyPlus_some _ _ _ _ hk
    obtain ⟨g'', t'', _, _, hk''⟩ := greedyPlus_some _ _ _ _ hk'
    cases hfrom : litCi (("from")).data t'' with
    | none =>
      rw [hfrom] at hk''
      exact absurd hk'' (by simp)
    | some r5 =>
      rw [hfrom] at hk''
      obtain ⟨g3, t3, _, _, hk3⟩ := greedyPlus_some _ _ _ _ hk''
      cases hpe : litCi (("people")).data t3 with
      | none =>
        rw [hpe] at hk3
        exact absurd hk3 (by simp)
      | some r7 =>
        rw [hpe] at hk3
        exact (sqlWhere_some _ _ _ _ _ hk3).2

theorem sqlSearch_limit (s : Str) (a : Str) (b : Option Str) (c : Option Str)
    (h : sqlSearch s = some (a, b, c)) : limitProp c := by
  obtain ⟨t, ht⟩ := searchAll_some _ _ _ h
  exact sqlMatchAt_limit _ _ _ _ ht

theorem digit_not_ws (c : Char) (h : c.isDigit = true) : c.isWhitespace = false := by
  by_cases hw : c.isWhitespace = true
  · have hd : c = ' ' ∨ c = '\t' ∨ c = '\r' ∨ c = '\n' := by
      simpa [Char.isWhitespace, or_assoc] using hw
    rcases hd with rfl | rfl | rfl | rfl <;> exact absurd h (by decide)
  · exact Bool.eq_false_iff.mpr hw

theorem dropWhile_eq_self_of {β : Type} (p : β → Bool) (l : List β)
    (h : ∀ c ∈ l, p c = false) : l.dropWhile p = l := by
  cases l with
  | nil => rfl
  | cons c t =>
    rw [List.dropWhile_cons, h c (List.mem_cons_self _ _)]
    simp

theorem trimL_of_all_digits (d : Str) (h : d.all Char.isDigit = true) : trimL d = d := by
  have hnw : ∀ c ∈ d, c.isWhitespace = false := fun c hc =>
    digit_not_ws c (List.all_eq_true.mp h c hc)
  unfold trimL
  rw [dropWhile_eq_self_of _ _ hnw,
    dropWhile_eq_self_of _ _ (fun c hc => hnw c (List.mem_reverse.mp hc)),
    List.reverse_reverse]

/-- C10: for every input the SQL structural pattern accepts, a captured
LIMIT argument is a nonempty run of decimal digits, so the integer
conversion succeeds and the invalid-limit warning branch is
unreachable. -/
theorem C10_limit_digits (s : Str) (a : Str) (b : Option Str) (d : Str)
    (h : sqlSearch s = some (a, b, some d)) :
    d ≠ [] ∧ d.all Char.isDigit = true
    ∧ pyIntDigits (trimL d) = some (digitsToNat d)
    ∧ ∀ rows, sqlApplyLimit (trimL d) rows = (rows.take (digitsToNat d), []) := by
  rcases sqlSearch_limit s a b (some d) h with h0 | ⟨d', hd', hne, hall⟩
  · exact absurd h0 (by simp)
  · have hdd : d = d' := by injection hd'
    subst hdd
    have htrim : trimL d = d := trimL_of_all_digits d hall
    have hie : d.isEmpty = false := by
      cases d with
      | nil => exact absurd rfl hne
      | cons c t => rfl
    have hpyd : pyIntDigits d = some (digitsToNat d) := by
      unfold pyIntDigits
      rw [hie, hall]
      rfl
    refine ⟨hne, hall, by rw [htrim]; exact hpyd, fun rows => ?_⟩
    unfold sqlApplyLimit
    rw [htrim, hie, hpyd]
    rfl

/-- Witness for C10 at a concrete accepted query. -/
theorem C10_limit_digits_witness :
    (sqlSearch ((("SELECT a FROM people LIMIT 7")).data)
      = some ((("a")).data, none, some ((("7")).data)))
    ∧ ((("7")).data ≠ [] ∧ (("7")).data.all Char.isDigit = true
      ∧ pyIntDigits (trimL ((("7")).data)) = some (digitsToNat ((("7")).data))
      ∧ sqlApplyLimit (trimL ((("7")).data)) dfW.rows
          = (dfW.rows.take (digitsToNat ((("7")).data)), [])) := by
  refine ⟨by decide, ?_⟩
  obtain ⟨h1, h2, h3, h4⟩ :=
    C10_limit_digits ((("SELECT a FROM people LIMIT 7")).data) ((("a")).data) none
      ((("7")).data) (by decide)
  exact ⟨h1, h2, h3, h4 dfW.rows⟩

/-! ## C4 -/

/-- C4 counterexample: a non-integer LIMIT argument does not match the
structural pattern `(\d+)` at all, so the query fails with a format
error instead of succeeding with a warning and an unlimited result. -/
theorem C4_cex :
    parse_sql_query dfW (("SELECT * FROM people LIMIT abc"))
      = Except.error (("SQL query format not recognized.")) := by
  rfl

/-- C4 (amended): `LIMIT n` truncates the WHERE-filtered result to its
first `min(n, filtered)` rows in original order, applied after
filtering; a LIMIT argument that is not a digit run never reaches the
conversion — the structural regex rejects the query with a format
error — so the invalid-limit warning is unreachable. -/
theorem C4_limit (df : DataFrame) (q : String) (g1 : Str) (g2 : Option Str) (d : Str)
    (mask : List Bool) (ws : List String)
    (hs : sqlSearch (normalizeWs q.data) = some (g1, g2, some d))
    (hw : sqlWhereMask df (groupStr g2) = Except.ok (mask, ws)) :
    parse_sql_query df q =
      Except.ok ⟨(applyMask df.rows mask).take (digitsToNat d),
        sqlSelFields df (trimL g1), ws⟩
    ∧ ((applyMask df.rows mask).take (digitsToNat d)).length
        = min (digitsToNat d) (applyMask df.rows mask).length := by
  rcases sqlSearch_limit _ _ _ _ hs with h0 | ⟨d', hd', hne, hall⟩
  · exact absurd h0 (by simp)
  · have hdd : d = d' := by injection hd'
    subst hdd
    have htrim : trimL d = d := trimL_of_all_digits d hall
    have hie : d.isEmpty = false := by
      cases d with
      | nil => exact absurd rfl hne
      | cons c t => rfl
    have hpyd : pyIntDigits d = some (digitsToNat d) := by
      unfold pyIntDigits
      rw [hie, hall]
      rfl
    have happ : sqlApplyLimit (groupStr (some d)) (applyMask df.rows mask)
        = ((applyMask df.rows mask).take (digitsToNat d), []) := by
      have hg : groupStr (some d) = trimL d := rfl
      rw [hg]
      unfold sqlApplyLimit
      rw [htrim, hie, hpyd]
      rfl
    constructor
    · simp only [parse_sql_query, hs]
      rw [hw]
      simp [happ]
    · simp

/-- Witness for C4's amended statement at a concrete query. -/
theorem C4_limit_witness :
    (sqlSearch (normalizeWs ((("SELECT * FROM people LIMIT 2")).data))
      = some ([('*')], none, some ([('2')])))
    ∧ (sqlWhereMask dfW (groupStr none) = Except.ok ([true, true], []))
    ∧ parse_sql_query dfW (("SELECT * FROM people LIMIT 2"))
        = Except.ok ⟨(applyMask dfW.rows [true, true]).take (digitsToNat [('2')]),
            sqlSelFields dfW (trimL [('*')]), []⟩ := by
  refine ⟨by decide, by rfl, ?_⟩
  exact (C4_limit dfW (("SELECT * FROM people LIMIT 2")) [('*')] none [('2')]
    [true, true] [] (by decide) (by rfl)).1

/-! ## C2 -/

theorem reSearch_nilpat : ∀ s : Str, reSearch [] s = true := by
  intro s
  induction s with
  | nil => rfl
  | cons c cs ih => simp [reSearch, reMatchHere]

theorem hasSub_nilpat : ∀ s : Str, hasSub s [] = true := by
  intro s
  cases s with
  | nil => rfl
  | cons c cs => simp [hasSub, List.isPrefixOf]

theorem reMatchHere_lit : ∀ (pat s : Str), (∀ c ∈ pat, pyReMeta c = false) →
    reMatchHere pat s = pat.isPrefixOf s := by
  intro pat
  induction pat with
  | nil =>
    intro s _
    cases s <;> rfl
  | cons p ps ih =>
    intro s h
    cases s with
    | nil => rfl
    | cons c cs =>
      have hp : pyReMeta p = false := h p (List.mem_cons_self _ _)
      have hdot : ¬ p = '.' := by
        intro he
        rw [he] at hp
        exact absurd hp (by decide)
      show (reCharMatch p c && reMatchHere ps cs) = ((p == c) && ps.isPrefixOf cs)
      rw [reCharMatch, if_neg hdot, ih cs (fun c2 hc2 => h c2 (List.mem_cons_of_mem _ hc2))]

theorem reSearch_lit (pat : Str) (h : ∀ c ∈ pat, pyReMeta c = false) :
    ∀ s, reSearch pat s = hasSub s pat := by
  intro s
  induction s with
  | nil =>
    show reMatchHere pat [] = pat.isEmpty
    rw [reMatchHere_lit pat [] h]
    cases pat <;> rfl
  | cons c cs ih =>
    show (reMatchHere pat (c :: cs) || reSearch pat cs)
      = (pat.isPrefixOf (c :: cs) || hasSub cs pat)
    rw [reMatchHere_lit pat _ h, ih]

theorem dropWhile_pct_of (l : Str) (h : startsPct l = false) : l.dropWhile pctC = l := by
  cases l with
  | nil => rfl
  | cons c t =>
    have h2 : pctC c = false := h
    rw [List.dropWhile_cons, h2]
    simp

theorem stripPctL_of (l : Str) (h : startsPct l = false) : stripPctL l = l :=
  dropWhile_pct_of l h

theorem stripPctR_of (l : Str) (h : endsPct l = false) : stripPctR l = l := by
  unfold stripPctR
  rw [dropWhile_pct_of _ h, List.reverse_reverse]

theorem endsPct_concat (l : Str) : endsPct (l ++ [('%')]) = true := by
  unfold endsPct
  rw [List.reverse_append]
  rfl

theorem stripPctL_cons_pct (l : Str) : stripPctL (('%') :: l) = stripPctL l := by
  unfold stripPctL
  rw [List.dropWhile_cons, if_pos (show pctC ('%') = true by decide)]

theorem stripPctR_concat (l : Str) (h : endsPct l = false) : stripPctR (l ++ [('%')]) = l := by
  unfold stripPctR
  rw [List.reverse_append]
  show ((('%') :: l.reverse).dropWhile pctC).reverse = l
  rw [List.dropWhile_cons, if_pos (show pctC ('%') = true by decide),
    dropWhile_pct_of _ h, List.reverse_reverse]

theorem startsPct_append_left (l m : Str) (h : l ≠ []) : startsPct (l ++ m) = startsPct l := by
  cases l with
  | nil => exact absurd rfl h
  | cons c t => rfl

/-- C2 counterexample: pandas `str.contains` interprets the LIKE value
as a regular expression, so `city LIKE '%.%'` keeps the row whose cell
is `x` even though `.` is not a substring of `x`. -/
theorem C2_cex :
    parse_sql_query (⟨[("City -MyData")], [[("x")]]⟩)
        (("SELECT * FROM people WHERE city LIKE \x27%.%\x27"))
      = Except.ok ⟨[[("x")]], [("City -MyData")], []⟩
    ∧ hasSub ((("x")).data) (((".")).data) = false := by
  exact ⟨rfl, by decide⟩

/-- C2 (amended): writing `val` and `cell` for the lower-cased LIKE
value and cell (the code lower-cases both, making every comparison
case-insensitive), and provided `val` neither starts nor ends with `%`
and — for the containment case — contains no regular-expression
metacharacter (pandas `str.contains` treats the pattern as a regex):
`%val%` keeps exactly the cells containing `val`, `val%` exactly those
starting with `val`, `%val` exactly those ending with `val`, and a
wildcard-free `val` exactly those equal to `val`. -/
theorem C2_like (v cell : Str) (h1 : startsPct v = false) (h2 : endsPct v = false)
    (h3 : ∀ c ∈ v, pyReMeta c = false) :
    evalLikeBranch ((('%') :: v) ++ [('%')]) cell = hasSub cell v
    ∧ evalLikeBranch (v ++ [('%')]) cell = v.isPrefixOf cell
    ∧ evalLikeBranch (('%') :: v) cell = v.isSuffixOf cell
    ∧ evalLikeBranch v cell = (cell == v)
    ∧ (∀ op value cellLow : Str, ¬ op = [('=')] → upperL op = (("LIKE")).data →
        sqlCondEval op value cellLow = evalLikeBranch (lowerL value) cellLow) := by
  have hlast : ∀ op value cellLow : Str, ¬ op = [('=')] → upperL op = (("LIKE")).data →
      sqlCondEval op value cellLow = evalLikeBranch (lowerL value) cellLow := by
    intro op value cellLow hop hup
    unfold sqlCondEval
    rw [if_neg hop, if_pos hup]
  cases v with
  | nil =>
    refine ⟨?_, ?_, ?_, ?_, hlast⟩
    · show reSearch [] cell = hasSub cell []
      rw [reSearch_nilpat, hasSub_nilpat]
    · show reSearch [] cell = ([] : Str).isPrefixOf cell
      rw [reSearch_nilpat]
      cases cell <;> rfl
    · show reSearch [] cell = ([] : Str).isSuffixOf cell
      rw [reSearch_nilpat]
      unfold List.isSuffixOf
      cases cell.reverse <;> rfl
    · rfl
  | cons c t =>
    have hc : pctC c = false := h1
    have hrev : (c :: t).reverse ≠ [] := by simp
    refine ⟨?_, ?_, ?_, ?_, hlast⟩
    · -- pattern `%val%` : the contains branch
      have hsp : startsPct ((('%') :: (c :: t)) ++ [('%')]) = true := rfl
      have hep : endsPct ((('%') :: (c :: t)) ++ [('%')]) = true := endsPct_concat _
      have hstrip : stripPct ((('%') :: (c :: t)) ++ [('%')]) = c :: t := by
        unfold stripPct
        show stripPctR (stripPctL (('%') :: ((c :: t) ++ [('%')]))) = c :: t
        rw [stripPctL_cons_pct, stripPctL_of _ (show startsPct ((c :: t) ++ [('%')]) = false from hc),
          stripPctR_concat _ h2]
      unfold evalLikeBranch
      rw [hsp, hep, hstrip]
      show reSearch (c :: t) cell = hasSub cell (c :: t)
      exact reSearch_lit _ h3 cell
    · -- pattern `val%` : the prefix branch
      have hsp : startsPct ((c :: t) ++ [('%')]) = false := hc
      have hep : endsPct ((c :: t) ++ [('%')]) = true := endsPct_concat _
      unfold evalLikeBranch
      rw [hsp, hep, stripPctR_concat _ h2]
      rfl
    · -- pattern `%val` : the suffix branch
      have hsp : startsPct (('%') :: (c :: t)) = true := rfl
      have hep : endsPct (('%') :: (c :: t)) = false := by
        unfold endsPct
        rw [List.reverse_cons, startsPct_append_left _ _ hrev]
        exact h2
      unfold evalLikeBranch
      rw [hsp, hep]
      rw [if_neg (by decide), if_neg (by decide), if_pos (by decide)]
      rw [stripPctL_cons_pct, stripPctL_of _ h1]
    · -- pattern `val` with no wildcards : the equality branch
      unfold evalLikeBranch
      rw [h1, h2]
      rw [if_neg (by decide), if_neg (by decide), if_neg (by decide)]

/-- Witness for C2's amended statement at concrete inputs. -/
theorem C2_like_witness :
    (startsPct ((("ab")).data) = false ∧ endsPct ((("ab")).data) = false
      ∧ ∀ c ∈ (("ab")).data, pyReMeta c = false)
    ∧ evalLikeBranch ((('%') :: (("ab")).data) ++ [('%')]) ((("xaby")).data)
        = hasSub ((("xaby")).data) ((("ab")).data)
    ∧ evalLikeBranch ((("ab")).data ++ [('%')]) ((("xaby")).data)
        = (("ab")).data.isPrefixOf ((("xaby")).data) := by
  obtain ⟨ha, hb, _, _, _⟩ :=
    C2_like ((("ab")).data) ((("xaby")).data) (by decide) (by decide) (by decide)
  exact ⟨⟨by decide, by decide, by decide⟩, ha, hb⟩

end AZVoting
